import Mathlib

/-!
Shallow embedding of the md-to-docx-cli conversion pipeline.

The source is a TypeScript CLI (ink/React UI).  The components embedded
here, translated from the source files:

* a model of JavaScript runtime values (JSVal) and of the string-to-number
  coercion performed by Number(string), used by the style sanitizer;
* the style whitelist sets and the sanitizer (sanitizedStyleEntries and
  sanitizedStyle in the App component);
* the TOC marker insertion (the effectiveMarkdown expression);
* the output-path resolver (resolveOutputPath plus the existing-directory
  override in convert), over a POSIX model of node's path functions;
* the convert function of the App component, as a pure function of an
  environment recording the outcome of every I/O effect;
* the debounced file-watch loop, as a discrete event model of the single
  debounce timer reference;
* the wizard navigation handlers (withNav and the useInput shortcuts).
-/

/-! ## JavaScript runtime values -/

/-- A JavaScript number: a finite value (modelled at rational precision),
NaN, or a signed infinity. -/
inductive JSNum where
  | finite (q : ℚ)
  | nan
  | posInf
  | negInf
deriving DecidableEq

/-- A JavaScript runtime value, restricted to the shapes style entries
can take. -/
inductive JSVal where
  | str (s : String)
  | num (n : JSNum)
  | bool (b : Bool)
  | null
  | undef
deriving DecidableEq

/-- The finite payload of a JS number, if any. -/
def JSNum.toFinite : JSNum → Option ℚ
  | .finite q => some q
  | _ => none

/-- Number.isFinite on a JS number. -/
def JSNum.isFiniteB : JSNum → Bool
  | .finite _ => true
  | _ => false

/-! ## Number(string): the JS string-to-number coercion -/

/-- JS StrWhiteSpace characters (the common ones). -/
def isJsWhitespace (c : Char) : Bool :=
  c == ' ' || c == '\t' || c == '\n' || c == '\r' || c == '\x0b' || c == '\x0c' ||
  c == '\xa0' || c.val == 0xFEFF || c.val == 0x2028 || c.val == 0x2029

def digitsToNat (l : List Char) : ℕ :=
  l.foldl (fun acc c => acc * 10 + (c.toNat - '0'.toNat)) 0

def hexDigitVal (c : Char) : ℕ :=
  if c.isDigit then c.toNat - '0'.toNat
  else if 'a' ≤ c ∧ c ≤ 'f' then c.toNat - 'a'.toNat + 10
  else c.toNat - 'A'.toNat + 10

def isRadixDigit (r : ℕ) (c : Char) : Bool :=
  if r = 16 then c.isDigit || ('a' ≤ c && c ≤ 'f') || ('A' ≤ c && c ≤ 'F')
  else if r = 8 then '0' ≤ c && c ≤ '7'
  else '0' ≤ c && c ≤ '1'

def radixToNat (r : ℕ) (l : List Char) : ℕ :=
  l.foldl (fun acc c => acc * r + hexDigitVal c) 0

/-- Parse the exponent tail of a decimal literal ([] means exponent 0). -/
def parseExpPart : List Char → Option ℤ
  | [] => some 0
  | c :: rest =>
    if c = 'e' ∨ c = 'E' then
      match rest with
      | '+' :: ds => if ds ≠ [] ∧ ds.all Char.isDigit then some (digitsToNat ds : ℤ) else none
      | '-' :: ds => if ds ≠ [] ∧ ds.all Char.isDigit then some (-(digitsToNat ds : ℤ)) else none
      | ds => if ds ≠ [] ∧ ds.all Char.isDigit then some (digitsToNat ds : ℤ) else none
    else none

/-- The rational value of a decimal literal with integer digits, fraction
digits and a decimal exponent: mantissa times ten to the (e - fraction
length), built from integer arithmetic and mkRat only. -/
def decLiteralValue (intPart fracPart : List Char) (e : ℤ) : ℚ :=
  let mant : ℤ := (digitsToNat intPart * 10 ^ fracPart.length + digitsToNat fracPart : ℕ)
  let shift : ℤ := e - fracPart.length
  if 0 ≤ shift then mkRat (mant * 10 ^ shift.toNat) 1
  else mkRat mant (10 ^ (-shift).toNat)

/-- Parse an unsigned decimal literal (digits, optional fraction, optional
exponent); none means the text is not a decimal literal. -/
def parseDecMagnitude (l : List Char) : Option ℚ :=
  let intPart := l.takeWhile Char.isDigit
  let rest := l.dropWhile Char.isDigit
  match rest with
  | '.' :: rest2 =>
    let fracPart := rest2.takeWhile Char.isDigit
    let rest3 := rest2.dropWhile Char.isDigit
    if intPart = [] ∧ fracPart = [] then none
    else (parseExpPart rest3).map (decLiteralValue intPart fracPart)
  | _ =>
    if intPart = [] then none
    else (parseExpPart rest).map (decLiteralValue intPart [])

def jsDecUnsigned (neg : Bool) (t : List Char) : JSNum :=
  if t = ['I', 'n', 'f', 'i', 'n', 'i', 't', 'y'] then (if neg then .negInf else .posInf)
  else
    match parseDecMagnitude t with
    | some q => .finite (if neg then -q else q)
    | none => .nan

def jsDecSigned (t : List Char) : JSNum :=
  match t with
  | '+' :: rest => jsDecUnsigned false rest
  | '-' :: rest => jsDecUnsigned true rest
  | _ => jsDecUnsigned false t

def jsRadixLiteral (r : ℕ) (rest : List Char) : JSNum :=
  if rest ≠ [] ∧ rest.all (isRadixDigit r) then .finite (mkRat (radixToNat r rest) 1) else .nan

/-- The JS coercion Number(string): trim whitespace, empty means +0,
then a radix literal, Infinity, or a signed decimal literal; NaN otherwise. -/
def jsStringToNumber (s : String) : JSNum :=
  let t := ((s.toList.dropWhile isJsWhitespace).reverse.dropWhile isJsWhitespace).reverse
  if t = [] then .finite 0
  else
    match t with
    | '0' :: 'x' :: rest => jsRadixLiteral 16 rest
    | '0' :: 'X' :: rest => jsRadixLiteral 16 rest
    | '0' :: 'o' :: rest => jsRadixLiteral 8 rest
    | '0' :: 'O' :: rest => jsRadixLiteral 8 rest
    | '0' :: 'b' :: rest => jsRadixLiteral 2 rest
    | '0' :: 'B' :: rest => jsRadixLiteral 2 rest
    | _ => jsDecSigned t

/-! ## The style whitelist and sanitizer (App.convert, Prepare options) -/

def numericStyleKeys : List String :=
  ["titleSize", "headingSpacing", "paragraphSpacing", "lineSpacing",
   "heading1Size", "heading2Size", "heading3Size", "heading4Size", "heading5Size",
   "paragraphSize", "listItemSize", "codeBlockSize", "blockquoteSize",
   "tocFontSize", "tocHeading1FontSize", "tocHeading2FontSize", "tocHeading3FontSize",
   "tocHeading4FontSize", "tocHeading5FontSize"]

def booleanStyleKeys : List String :=
  ["tocHeading1Bold", "tocHeading2Bold", "tocHeading3Bold", "tocHeading4Bold",
   "tocHeading5Bold", "tocHeading1Italic", "tocHeading2Italic", "tocHeading3Italic",
   "tocHeading4Italic", "tocHeading5Italic"]

def stringStyleKeys : List String :=
  ["paragraphAlignment", "headingAlignment", "heading1Alignment", "heading2Alignment",
   "heading3Alignment", "heading4Alignment", "heading5Alignment", "blockquoteAlignment",
   "direction"]

def styleSchemaContains (k : String) : Bool :=
  numericStyleKeys.contains k || booleanStyleKeys.contains k || stringStyleKeys.contains k

/-- The numeric coercion of the sanitizer: a string value goes through
Number(value), any other value is the unchanged "value as number" cast. -/
def numericCast (v : JSVal) : JSVal :=
  match v with
  | .str s => .num (jsStringToNumber s)
  | v => v

/-- Number.isFinite(typeof value === "string" ? Number(value) : value):
true only for finite numbers and strings coercing to finite numbers. -/
def finiteCheck (v : JSVal) : Bool :=
  match v with
  | .str s => (jsStringToNumber s).isFiniteB
  | .num n => n.isFiniteB
  | _ => false

/-- The filter predicate of sanitizedStyleEntries. -/
def styleKeep (kv : String × JSVal) : Bool :=
  if numericStyleKeys.contains kv.1 then finiteCheck kv.2
  else if booleanStyleKeys.contains kv.1 then
    match kv.2 with
    | .bool _ => true
    | _ => false
  else if stringStyleKeys.contains kv.1 then
    match kv.2 with
    | .str s => 0 < s.length
    | _ => false
  else false

/-- Object.entries(mergedRaw).filter(...) of the source. -/
def sanitizedStyleEntries (m : List (String × JSVal)) : List (String × JSVal) :=
  m.filter styleKeep

/-- Object.fromEntries(sanitizedStyleEntries.map(...)): the sanitized
style object, numeric keys carrying the coerced number. -/
def sanitizedStyle (m : List (String × JSVal)) : List (String × JSVal) :=
  (sanitizedStyleEntries m).map
    (fun kv => if numericStyleKeys.contains kv.1 then (kv.1, numericCast kv.2) else kv)

/-! ## TOC marker insertion (the effectiveMarkdown expression) -/

/-- String.prototype.includes: the search string occurs inside s. -/
def jsIncludes (s search : String) : Bool :=
  decide (List.IsInfix search.toList s.toList)

/-- The effectiveMarkdown expression of convert: when the toc flag is set
and the literal marker is absent, prepend the marker block. -/
def effectiveMarkdown (toc : Bool) (markdown : String) : String :=
  if toc && !(jsIncludes markdown "[TOC]") then "\n[TOC]\n\n" ++ markdown else markdown

/-! ## POSIX path model (node:path as used by the pipeline) -/

def pathSep : String := "/"

/-- Split a list at the last occurrence of c: some (before, after), or
none when c does not occur. -/
def splitAtLast (c : Char) : List Char → Option (List Char × List Char)
  | [] => none
  | x :: xs =>
    match splitAtLast c xs with
    | some (pre, post) => some (x :: pre, post)
    | none => if x = c then some ([], xs) else none

structure ParsedPath where
  dir : String
  base : String
  name : String
  ext : String
deriving DecidableEq

def dropTrailingSlashes (l : List Char) : List Char :=
  (l.reverse.dropWhile (· = '/')).reverse

/-- path.parse for POSIX paths: directory part, base name, name without
extension, extension. -/
def posixParse (p : String) : ParsedPath :=
  let cs := p.toList
  let body := dropTrailingSlashes cs
  if body = [] then
    if cs = [] then ⟨"", "", "", ""⟩ else ⟨"/", "", "", ""⟩
  else
    let (dirCs, baseCs) :=
      match splitAtLast '/' body with
      | none => ([], body)
      | some (pre, post) => (if pre = [] then ['/'] else pre, post)
    let (nameCs, extCs) :=
      match splitAtLast '.' baseCs with
      | none => (baseCs, ([] : List Char))
      | some (pre, post) => if pre = [] then (baseCs, []) else (pre, '.' :: post)
    ⟨String.mk dirCs, String.mk baseCs, String.mk nameCs, String.mk extCs⟩

/-- Split a character list on a character (the pieces do not contain it). -/
def splitOnChar (c : Char) : List Char → List (List Char)
  | [] => [[]]
  | x :: xs =>
    let r := splitOnChar c xs
    if x = c then [] :: r
    else
      match r with
      | h :: t => (x :: h) :: t
      | [] => [[x]]

/-- Join segments with the separator character. -/
def joinSegs : List (List Char) → List Char
  | [] => []
  | [s] => s
  | s :: rest => s ++ '/' :: joinSegs rest

/-- Resolve "." and ".." segments the way node's path normalization does;
acc holds already-accepted segments in reverse. -/
def normSegs (isAbs : Bool) : List (List Char) → List (List Char) → List (List Char)
  | acc, [] => acc.reverse
  | acc, s :: rest =>
    if s = ['.'] then normSegs isAbs acc rest
    else if s = ['.', '.'] then
      match acc with
      | [] => if isAbs then normSegs isAbs [] rest else normSegs isAbs [['.', '.']] rest
      | a :: as =>
        if a = ['.', '.'] then normSegs isAbs (['.', '.'] :: a :: as) rest
        else normSegs isAbs as rest
    else normSegs isAbs (s :: acc) rest

/-- path.join for two POSIX segments: concatenate the non-empty parts with
a separator and normalize (modelled on character lists so that every step
is a plain structural computation). -/
def posixJoin (a b : String) : String :=
  let parts := [a.toList, b.toList].filter (· ≠ [])
  if parts = [] then "."
  else
    let joined := joinSegs parts
    let isAbs := joined.head? = some '/'
    let hasTrail := joined.getLast? = some '/'
    let segs := normSegs isAbs [] ((splitOnChar '/' joined).filter (· ≠ []))
    let body := joinSegs segs
    let core := if isAbs then '/' :: body else if body = [] then ['.'] else body
    let final := if hasTrail ∧ core.getLast? ≠ some '/' ∧ body ≠ [] then core ++ ['/'] else core
    String.mk final

/-! ## Flags and output path resolution -/

/-- The Flags record threaded from CLI or wizard into the pipeline ("open"
is a Lean keyword, so the field is openFlag). -/
structure Flags where
  output : Option String
  type : Option String
  toc : Bool
  rtl : Bool
  align : Option String
  style : Option String
  openFlag : Bool
  watch : Bool
  verbose : Bool
  compact : Bool
deriving DecidableEq

def defaultFlags : Flags :=
  { output := none, type := none, toc := false, rtl := false, align := none,
    style := none, openFlag := false, watch := false, verbose := false, compact := false }

/-- JS truthiness of an optional string (undefined and "" are falsy). -/
def optStrTruthy : Option String → Bool
  | none => false
  | some s => s ≠ ""

/-- String.prototype.endsWith(path.sep) for the POSIX separator. -/
def endsWithSep (s : String) : Bool :=
  s.toList.getLast? = some '/'

/-- resolveOutputPath of the App component: default to the input's
directory and base name with .docx; a desired output with a trailing
separator is a directory target; otherwise the desired output verbatim. -/
def resolveOutputPath (inPath : String) (desired : Option String) : String :=
  if !optStrTruthy desired then
    let p := posixParse inPath
    posixJoin p.dir (p.name ++ ".docx")
  else
    let d := desired.getD ""
    if endsWithSep d then posixJoin d ((posixParse inPath).name ++ ".docx") else d

inductive StatKind where
  | file
  | dir
  | other
deriving DecidableEq

/-- The final output path computed in convert: resolveOutputPath, then the
override that places the file inside flags.output when a stat at call time
says it is an existing directory. -/
def convertOutPath (flags : Flags) (inPath : String) (outStat : Option StatKind) : String :=
  let outPath := resolveOutputPath inPath flags.output
  if optStrTruthy flags.output then
    if outStat = some StatKind.dir then
      posixJoin (flags.output.getD "") ((posixParse inPath).name ++ ".docx")
    else outPath
  else outPath

/-! ## The convert function as a pure function of an effect environment -/

/-- The produced DOCX artifact, as an opaque byte sequence. -/
abbrev Artifact := List ℕ

/-- A JSON style object (the style block of the config file or the
contents of an explicit style file). -/
abbrev StyleObj := List (String × JSVal)

/-- The parsed project config file .mdtodocxrc.json. -/
structure RcConfig where
  documentType : Option String
  style : Option StyleObj
deriving DecidableEq

/-- What a JSON file on disk can yield: absent (ENOENT), a read or parse
failure with its message, or a parsed value. -/
inductive FileOutcome (α : Type) where
  | absent
  | failure (msg : String)
  | json (a : α)
deriving DecidableEq

/-- loadJsonIfExists: a falsy path yields undefined, ENOENT yields
undefined, any other failure throws the wrapped message. -/
def loadJsonIfExists {α : Type} (filePath : Option String) (outcome : FileOutcome α) :
    Except String (Option α) :=
  if !optStrTruthy filePath then .ok none
  else
    match outcome with
    | .absent => .ok none
    | .failure msg => .error ("Failed to read or parse JSON: " ++ filePath.getD "" ++ "\n" ++ msg)
    | .json a => .ok (some a)

def rcFileName : String := ".mdtodocxrc.json"

/-- The outcome of every I/O effect one convert invocation can perform.
Each field is consulted only if control flow reaches the corresponding
call in the source. -/
structure Env where
  inputStat : Option StatKind
  readOutcome : Except String String
  rcOutcome : FileOutcome RcConfig
  styleOutcome : FileOutcome StyleObj
  convOutcome : Except String Artifact
  outStat : Option StatKind
  writeOutcome : Except String Unit
  openOutcome : Except String Unit
  watchOutcome : Except String Unit
  watcherPresent : Bool

/-- The options record handed to convertMarkdownToDocx. -/
structure ConvOptions where
  documentType : String
  style : Option StyleObj
deriving DecidableEq

/-- Observable result of one convert invocation: final error and status
texts, the successful writes, the converter calls, whether the artifact
was opened and whether a watcher was installed. -/
structure ConvertResult where
  error : Option String
  status : Option String
  writes : List (String × Artifact)
  converterCalls : List (String × ConvOptions)
  opened : Bool
  watcherInstalled : Bool
deriving DecidableEq

/-- A fatal throw caught by the catch block: error set, the last status
left in place, nothing written, opened or watched. -/
def mkFatal (msg status : String) : ConvertResult :=
  { error := some msg, status := some status, writes := [], converterCalls := [],
    opened := false, watcherInstalled := false }

/-- Built-in numeric defaults, applied only when the user signals intent
to customize style (1.15 is mkRat 23 20). -/
def builtinNumericDefaults : StyleObj :=
  [("titleSize", .num (.finite 32)), ("headingSpacing", .num (.finite 240)),
   ("paragraphSpacing", .num (.finite 240)), ("lineSpacing", .num (.finite (mkRat 23 20))),
   ("heading1Size", .num (.finite 32)), ("heading2Size", .num (.finite 28)),
   ("heading3Size", .num (.finite 24)), ("heading4Size", .num (.finite 20)),
   ("heading5Size", .num (.finite 18)), ("paragraphSize", .num (.finite 24)),
   ("listItemSize", .num (.finite 24)), ("codeBlockSize", .num (.finite 20)),
   ("blockquoteSize", .num (.finite 24)), ("tocFontSize", .num (.finite 22))]

/-- JS object update: existing keys keep their position and take the new
value, new keys are appended. -/
def setKey (o : StyleObj) (k : String) (v : JSVal) : StyleObj :=
  if o.any (fun p => p.1 == k) then o.map (fun p => if p.1 == k then (k, v) else p)
  else o ++ [(k, v)]

/-- JS object spread of upd over base, key by key. -/
def jsSpread (base upd : StyleObj) : StyleObj :=
  upd.foldl (fun acc p => setKey acc p.1 p.2) base

/-- The nullish chain flags.type ?? rc?.documentType ?? "document". -/
def effectiveDocumentType (flagType rcType : Option String) : String :=
  flagType.getD (rcType.getD "document")

/-- The tail of convert that installs the watcher after a successful
conversion, when requested and not yet present; an install failure clears
the status and stores a warning in the error slot without undoing r. -/
def finishWatch (flags : Flags) (env : Env) (r : ConvertResult) : ConvertResult :=
  if flags.watch && !env.watcherPresent then
    match env.watchOutcome with
    | .ok _ =>
      { r with watcherInstalled := true,
               status := some ((r.status.getD "") ++ "\nWatching for changes...") }
    | .error msg =>
      { r with status := none, error := some ("Failed to start file watcher: " ++ msg) }
  else r

/-- The body of convert from "Preparing options" on, given the markdown
text and the loaded config and style files. -/
def convertPhase2 (flags : Flags) (inPath : String) (env : Env) (markdown : String)
    (rc : Option RcConfig) (styleFromFile : Option StyleObj) : ConvertResult :=
  let rcStyle := rc.bind RcConfig.style
  let userWantsCustomStyle :=
    rcStyle.isSome || styleFromFile.isSome || optStrTruthy flags.align || flags.rtl
  let defaultNumericStyle := if userWantsCustomStyle then builtinNumericDefaults else []
  let alignOverride :=
    match flags.align with
    | some a => if a ≠ "" then [("paragraphAlignment", JSVal.str a)] else []
    | none => []
  let rtlOverride := if flags.rtl then [("direction", JSVal.str "RTL")] else []
  let mergedRaw :=
    jsSpread (jsSpread (jsSpread (jsSpread defaultNumericStyle (rcStyle.getD []))
      (styleFromFile.getD [])) alignOverride) rtlOverride
  let sanitized := sanitizedStyle mergedRaw
  let effMd := effectiveMarkdown flags.toc markdown
  let docType := effectiveDocumentType flags.type (rc.bind RcConfig.documentType)
  let opts : ConvOptions :=
    ⟨docType, if userWantsCustomStyle && sanitized.length != 0 then some sanitized else none⟩
  let convStatus :=
    if flags.verbose then
      "Converting to DOCX... (type=" ++ docType ++ ", rtl=" ++ toString flags.rtl ++
        ", toc=" ++ toString flags.toc ++ ")"
    else "Converting to DOCX..."
  match env.convOutcome with
  | .error msg => { mkFatal msg convStatus with converterCalls := [(effMd, opts)] }
  | .ok artifact =>
    let outPath := convertOutPath flags inPath env.outStat
    let writeStatus := if flags.verbose then "Writing " ++ outPath ++ "..." else "Writing output file..."
    match env.writeOutcome with
    | .error msg => { mkFatal msg writeStatus with converterCalls := [(effMd, opts)] }
    | .ok _ =>
      if flags.openFlag then
        match env.openOutcome with
        | .error msg =>
          { error := some msg, status := some ("Opening " ++ outPath ++ "..."),
            writes := [(outPath, artifact)], converterCalls := [(effMd, opts)],
            opened := false, watcherInstalled := false }
        | .ok _ =>
          finishWatch flags env
            { error := none, status := some ("Opening " ++ outPath ++ "..."),
              writes := [(outPath, artifact)], converterCalls := [(effMd, opts)],
              opened := true, watcherInstalled := false }
      else
        finishWatch flags env
          { error := none, status := some ("Done: " ++ outPath),
            writes := [(outPath, artifact)], converterCalls := [(effMd, opts)],
            opened := false, watcherInstalled := false }

/-- One convert invocation: validate, read, load config and style, then
convertPhase2; every throw lands in the shared catch block. -/
def runConvert (flags : Flags) (inPath : String) (env : Env) : ConvertResult :=
  if env.inputStat ≠ some StatKind.file then
    mkFatal ("Input not found or not a file: " ++ inPath) "Validating input path..."
  else
    match env.readOutcome with
    | .error msg => mkFatal msg "Reading markdown..."
    | .ok markdown =>
      match loadJsonIfExists (some rcFileName) env.rcOutcome with
      | .error msg => mkFatal msg "Preparing options..."
      | .ok rc =>
        match loadJsonIfExists flags.style env.styleOutcome with
        | .error msg => mkFatal msg "Preparing options..."
        | .ok styleFromFile => convertPhase2 flags inPath env markdown rc styleFromFile

/-! ## The CLI flag surface (meow) and document type precedence -/

/-- meow fills a string flag with its declared default when the user did
not pass it. -/
def meowStringFlag (provided : Option String) (dflt : String) : String :=
  provided.getD dflt

/-- The type flag as it leaves meow: declared default "document". -/
def cliTypeFlag (provided : Option String) : String :=
  meowStringFlag provided "document"

/-- The document type the converter sees for a CLI invocation: the meow
flag value (never undefined) fed into the nullish chain of convert. -/
def documentTypeFromCli (explicitType rcType : Option String) : String :=
  effectiveDocumentType (some (cliTypeFlag explicitType)) rcType

/-! ## The debounced watch loop -/

/-- The fixed debounce delay of the watcher callback (setTimeout 200). -/
def debounceDelayMs : ℕ := 200

/-- Discrete event model of the single debounce timer reference: process
change notifications in time order with at most one pending deadline.  A
pending timer whose deadline has passed by the next notification fires
(it invokes convert); otherwise the notification clears it (clearTimeout)
and arms a fresh timer 200ms after itself.  Returns the times at which a
reconversion is triggered. -/
def runDebounce : List ℕ → Option ℕ → List ℕ
  | [], none => []
  | [], some d => [d]
  | t :: ts, none => runDebounce ts (some (t + debounceDelayMs))
  | t :: ts, some d =>
    if d ≤ t then d :: runDebounce ts (some (t + debounceDelayMs))
    else runDebounce ts (some (t + debounceDelayMs))

/-! ## The wizard state machine (Wizard component) -/

inductive Step where
  | welcome
  | pickType
  | toc
  | rtl
  | align
  | style
  | output
  | watch
  | verbose
  | openStep
  | confirm
  | run
deriving DecidableEq, BEq

/-- The fixed stepOrder array of the Wizard ("open" is a Lean keyword, so
that step is openStep). -/
def stepOrder : List Step :=
  [.welcome, .pickType, .toc, .rtl, .align, .style, .output, .watch, .verbose,
   .openStep, .confirm, .run]

/-- The state held by the Wizard component. -/
structure WizardState where
  step : Step
  inputPath : String
  flags : Flags
deriving DecidableEq

/-- goPrev: move to stepOrder[max 0 (idx - 1)] (truncated subtraction
models the clamp). -/
def goPrev (s : WizardState) : WizardState :=
  { s with step := stepOrder.getD (stepOrder.indexOf s.step - 1) Step.welcome }

/-- The useInput shortcut handler: escape or b goes back, c or q cancels
to welcome, r runs from confirm; anything else is ignored. -/
def handleShortcut (s : WizardState) (input : Char) (escape : Bool) : WizardState :=
  if escape = true ∨ input.toLower = 'b' then goPrev s
  else if input.toLower = 'c' ∨ input.toLower = 'q' then { s with step := Step.welcome }
  else if input.toLower = 'r' ∧ s.step = Step.confirm then { s with step := Step.run }
  else s

/-- A selection in a withNav select list: the injected back and cancel
items, or one of the step's own items. -/
inductive NavChoice (α : Type) where
  | back
  | cancel
  | item (a : α)

/-- The withNav onSelect dispatcher: back delegates to goPrev, cancel sets
the step to welcome, any other item goes to the step's own handler. -/
def withNavSelect {α : Type} (s : WizardState) (choice : NavChoice α)
    (onSelect : WizardState → α → WizardState) : WizardState :=
  match choice with
  | .back => goPrev s
  | .cancel => { s with step := Step.welcome }
  | .item a => onSelect s a

/-! ## Concrete environments used by the error-handling results -/

/-- A concrete convert invocation where everything through persist
succeeds, open is requested and the OS open action fails. -/
def openFailEnv : Env :=
  { inputStat := some StatKind.file, readOutcome := .ok "# hi",
    rcOutcome := .absent, styleOutcome := .absent, convOutcome := .ok [1, 2, 3],
    outStat := none, writeOutcome := .ok (), openOutcome := .error "open failed",
    watchOutcome := .ok (), watcherPresent := false }

def openFailFlags : Flags :=
  { defaultFlags with openFlag := true, watch := true }

/-- A convert environment whose project config file parses to a
documentType of "report" and everything succeeds. -/
def rcReportEnv : Env :=
  { inputStat := some StatKind.file, readOutcome := .ok "# hi",
    rcOutcome := .json ⟨some "report", none⟩, styleOutcome := .absent,
    convOutcome := .ok [1], outStat := none, writeOutcome := .ok (),
    openOutcome := .ok (), watchOutcome := .ok (), watcherPresent := false }

/-- A concrete convert invocation whose conversion phase fails. -/
def convFailEnv : Env :=
  { inputStat := some StatKind.file, readOutcome := .ok "# hi",
    rcOutcome := .absent, styleOutcome := .absent, convOutcome := .error "boom",
    outStat := none, writeOutcome := .ok (), openOutcome := .ok (),
    watchOutcome := .ok (), watcherPresent := false }

/-! ## Results -/

/-! ## Helper lemmas -/

theorem toList_append (a b : String) : (a ++ b).toList = a.toList ++ b.toList := rfl

theorem jsIncludes_append_left (a b sub : String) (h : jsIncludes a sub = true) :
    jsIncludes (a ++ b) sub = true := by
  unfold jsIncludes at h ⊢
  rw [decide_eq_true_eq] at h ⊢
  rw [toList_append]
  exact h.trans (List.prefix_append a.toList b.toList).isInfix

/-- C3: TOC insertion is idempotent; text containing the marker is
unchanged; text without it gets the marker block prepended exactly once. -/
theorem toc_insertion_idempotent (t : String) :
    effectiveMarkdown true (effectiveMarkdown true t) = effectiveMarkdown true t ∧
    (jsIncludes t "[TOC]" = true → effectiveMarkdown true t = t) ∧
    (jsIncludes t "[TOC]" = false → effectiveMarkdown true t = "\n[TOC]\n\n" ++ t) := by
  refine ⟨?_, fun h => by simp [effectiveMarkdown, h], fun h => by simp [effectiveMarkdown, h]⟩
  by_cases h : jsIncludes t "[TOC]" = true
  · simp [effectiveMarkdown, h]
  · have h' : jsIncludes t "[TOC]" = false := by simpa using h
    have hpre : jsIncludes ("\n[TOC]\n\n" ++ t) "[TOC]" = true :=
      jsIncludes_append_left _ _ _ (by decide)
    simp [effectiveMarkdown, h', hpre]

theorem toc_insertion_idempotent_witness :
    jsIncludes "intro [TOC] body" "[TOC]" = true ∧
    effectiveMarkdown true "intro [TOC] body" = "intro [TOC] body" ∧
    jsIncludes "# Title" "[TOC]" = false ∧
    effectiveMarkdown true "# Title" = "\n[TOC]\n\n# Title" ∧
    effectiveMarkdown true (effectiveMarkdown true "# Title") = effectiveMarkdown true "# Title" :=
  ⟨by decide, (toc_insertion_idempotent "intro [TOC] body").2.1 (by decide), by decide,
   by rw [(toc_insertion_idempotent "# Title").2.2 (by decide)]; rfl,
   (toc_insertion_idempotent "# Title").1⟩

/-- C2: every entry surviving sanitize sits under a schema key with the
type its class declares; keys outside the schema never appear. -/
theorem style_sanitizer_type_sound (m : List (String × JSVal)) (k : String) (v : JSVal)
    (hmem : (k, v) ∈ sanitizedStyle m) :
    styleSchemaContains k = true ∧
    ((numericStyleKeys.contains k = true ∧ ∃ q : ℚ, v = .num (.finite q)) ∨
     (booleanStyleKeys.contains k = true ∧ ∃ b : Bool, v = .bool b) ∨
     (stringStyleKeys.contains k = true ∧ ∃ s : String, v = .str s ∧ 0 < s.length)) := by
  obtain ⟨⟨k', v'⟩, hin, heq⟩ := List.mem_map.mp hmem
  have hkeep := (List.mem_filter.mp hin).2
  by_cases hn : numericStyleKeys.contains k' = true
  · simp only [hn, if_true] at heq
    obtain ⟨rfl, rfl⟩ : k' = k ∧ numericCast v' = v := by
      simpa [Prod.ext_iff] using heq
    simp only [styleKeep, hn, if_true] at hkeep
    have hnm : k' ∈ numericStyleKeys := by simpa using hn
    refine ⟨by simp [styleSchemaContains, hnm], Or.inl ⟨hn, ?_⟩⟩
    cases v' with
    | str s =>
      simp only [finiteCheck] at hkeep
      cases hjs : jsStringToNumber s with
      | finite q => exact ⟨q, by simp [numericCast, hjs]⟩
      | nan => rw [hjs] at hkeep; simp [JSNum.isFiniteB] at hkeep
      | posInf => rw [hjs] at hkeep; simp [JSNum.isFiniteB] at hkeep
      | negInf => rw [hjs] at hkeep; simp [JSNum.isFiniteB] at hkeep
    | num n =>
      cases n with
      | finite q => exact ⟨q, by simp [numericCast]⟩
      | nan => simp [finiteCheck, JSNum.isFiniteB] at hkeep
      | posInf => simp [finiteCheck, JSNum.isFiniteB] at hkeep
      | negInf => simp [finiteCheck, JSNum.isFiniteB] at hkeep
    | bool b => simp [finiteCheck] at hkeep
    | null => simp [finiteCheck] at hkeep
    | undef => simp [finiteCheck] at hkeep
  · simp only [hn, if_false, Bool.false_eq_true] at heq
    have heq' : k' = k ∧ v' = v := by simpa [Prod.ext_iff] using heq
    obtain ⟨rfl, rfl⟩ := heq'
    by_cases hb : booleanStyleKeys.contains k' = true
    · simp only [styleKeep, hn, hb, if_true, Bool.false_eq_true, if_false] at hkeep
      have hbm : k' ∈ booleanStyleKeys := by simpa using hb
      cases v' with
      | bool b =>
        exact ⟨by simp [styleSchemaContains, hbm], Or.inr (Or.inl ⟨hb, b, rfl⟩)⟩
      | str s => simp at hkeep
      | num n => simp at hkeep
      | null => simp at hkeep
      | undef => simp at hkeep
    · by_cases hs : stringStyleKeys.contains k' = true
      · simp only [styleKeep, hn, hb, hs, if_true, Bool.false_eq_true, if_false] at hkeep
        have hsm : k' ∈ stringStyleKeys := by simpa using hs
        cases v' with
        | str s =>
          refine ⟨by simp [styleSchemaContains, hsm], Or.inr (Or.inr ⟨hs, s, rfl, ?_⟩)⟩
          simpa using hkeep
        | num n => simp at hkeep
        | bool b => simp at hkeep
        | null => simp at hkeep
        | undef => simp at hkeep
      · have hnm : k' ∉ numericStyleKeys := by simpa using hn
        have hbm : k' ∉ booleanStyleKeys := by simpa using hb
        have hsm : k' ∉ stringStyleKeys := by simpa using hs
        simp [styleKeep, hnm, hbm, hsm] at hkeep

theorem style_sanitizer_type_sound_witness :
    (("titleSize", JSVal.num (.finite 24)) ∈
      sanitizedStyle [("titleSize", JSVal.num (.finite 24)), ("junk", JSVal.bool true)]) ∧
    (styleSchemaContains "titleSize" = true ∧
     ((numericStyleKeys.contains "titleSize" = true ∧
        ∃ q : ℚ, JSVal.num (.finite 24) = JSVal.num (.finite q)) ∨
      (booleanStyleKeys.contains "titleSize" = true ∧
        ∃ b : Bool, JSVal.num (.finite 24) = JSVal.bool b) ∨
      (stringStyleKeys.contains "titleSize" = true ∧
        ∃ s : String, JSVal.num (.finite 24) = JSVal.str s ∧ 0 < s.length))) :=
  ⟨by decide,
   style_sanitizer_type_sound [("titleSize", JSVal.num (.finite 24)), ("junk", JSVal.bool true)]
     "titleSize" (JSVal.num (.finite 24)) (by decide)⟩

theorem sanitizedStyle_append (a b : List (String × JSVal)) :
    sanitizedStyle (a ++ b) = sanitizedStyle a ++ sanitizedStyle b := by
  simp [sanitizedStyle, sanitizedStyleEntries, List.filter_append, List.map_append]

theorem sanitizedStyle_cons_keep (kv : String × JSVal) (m : List (String × JSVal))
    (h : styleKeep kv = true) :
    sanitizedStyle (kv :: m) =
      (if numericStyleKeys.contains kv.1 then (kv.1, numericCast kv.2) else kv) ::
        sanitizedStyle m := by
  simp [sanitizedStyle, sanitizedStyleEntries, List.filter_cons, h]

theorem sanitizedStyle_cons_drop (kv : String × JSVal) (m : List (String × JSVal))
    (h : styleKeep kv = false) :
    sanitizedStyle (kv :: m) = sanitizedStyle m := by
  simp [sanitizedStyle, sanitizedStyleEntries, List.filter_cons, h]

/-- C5: a string under a numeric key is coerced to its parse exactly when
that parse is finite, and dropped otherwise. -/
theorem numeric_coercion_closure (k s : String) (m₁ m₂ : List (String × JSVal))
    (hk : numericStyleKeys.contains k = true) :
    (∀ q : ℚ, jsStringToNumber s = .finite q →
      sanitizedStyle (m₁ ++ (k, .str s) :: m₂) =
        sanitizedStyle m₁ ++ (k, .num (.finite q)) :: sanitizedStyle m₂) ∧
    ((jsStringToNumber s).isFiniteB = false →
      sanitizedStyle (m₁ ++ (k, .str s) :: m₂) = sanitizedStyle m₁ ++ sanitizedStyle m₂) := by
  have hkm : k ∈ numericStyleKeys := by simpa using hk
  constructor
  · intro q hq
    rw [sanitizedStyle_append, sanitizedStyle_cons_keep _ _
      (by simp [styleKeep, hkm, finiteCheck, hq, JSNum.isFiniteB])]
    simp [hkm, numericCast, hq]
  · intro hnf
    rw [sanitizedStyle_append, sanitizedStyle_cons_drop _ _
      (by simp [styleKeep, hkm, finiteCheck, hnf])]

theorem numeric_coercion_closure_witness :
    numericStyleKeys.contains "titleSize" = true ∧
    jsStringToNumber "24" = .finite 24 ∧
    sanitizedStyle [("titleSize", JSVal.str "24")] = [("titleSize", JSVal.num (.finite 24))] ∧
    (jsStringToNumber "abc").isFiniteB = false ∧
    sanitizedStyle [("titleSize", JSVal.str "abc")] = [] := by
  refine ⟨by decide, by decide, ?_, by decide, ?_⟩
  · have := (numeric_coercion_closure "titleSize" "24" [] [] (by decide)).1 24 (by decide)
    simpa using this
  · have := (numeric_coercion_closure "titleSize" "abc" [] [] (by decide)).2 (by decide)
    simpa using this

theorem dropWhile_all_eq_nil {α : Type} {p : α → Bool} {l : List α} (h : l.all p = true) :
    l.dropWhile p = [] := by
  induction l with
  | nil => rfl
  | cons a l ih => simp_all [List.dropWhile_cons, List.all_cons]

theorem jsStringToNumber_whitespace (s : String) (h : s.toList.all isJsWhitespace = true) :
    jsStringToNumber s = .finite 0 := by
  have h1 : s.toList.dropWhile isJsWhitespace = [] := dropWhile_all_eq_nil h
  unfold jsStringToNumber
  simp only [h1, List.reverse_nil, List.dropWhile_nil, if_pos]

/-- C10: an empty or all-whitespace string under a numeric key is kept and
coerced to 0 (Number of such a string is +0, which is finite). -/
theorem whitespace_numeric_entry_kept (k s : String) (m₁ m₂ : List (String × JSVal))
    (hk : numericStyleKeys.contains k = true)
    (hs : s.toList.all isJsWhitespace = true) :
    sanitizedStyle (m₁ ++ (k, .str s) :: m₂) =
      sanitizedStyle m₁ ++ (k, .num (.finite 0)) :: sanitizedStyle m₂ := by
  have hq := jsStringToNumber_whitespace s hs
  have hkm : k ∈ numericStyleKeys := by simpa using hk
  rw [sanitizedStyle_append, sanitizedStyle_cons_keep _ _
    (by simp [styleKeep, hkm, finiteCheck, hq, JSNum.isFiniteB])]
  simp [hkm, numericCast, hq]

theorem whitespace_numeric_entry_kept_witness :
    numericStyleKeys.contains "paragraphSize" = true ∧
    "".toList.all isJsWhitespace = true ∧
    "  ".toList.all isJsWhitespace = true ∧
    sanitizedStyle [("direction", JSVal.str "RTL"), ("paragraphSize", JSVal.str "")] =
      [("direction", JSVal.str "RTL"), ("paragraphSize", JSVal.num (.finite 0))] ∧
    sanitizedStyle [("paragraphSize", JSVal.str "  ")] = [("paragraphSize", JSVal.num (.finite 0))] := by
  refine ⟨by decide, by decide, by decide, ?_, ?_⟩
  · have := whitespace_numeric_entry_kept "paragraphSize" ""
      [("direction", JSVal.str "RTL")] [] (by decide) (by decide)
    simpa using this
  · have := whitespace_numeric_entry_kept "paragraphSize" "  " [] [] (by decide) (by decide)
    simpa using this

/-- C4: output path resolution: no desired output uses the input's
directory and base name with .docx; a trailing-separator or
existing-directory output is a directory target; anything else is
verbatim; plus the three concrete examples. -/
theorem output_path_resolution :
    (∀ (flags : Flags) (inPath : String) (outStat : Option StatKind),
      flags.output = none →
        convertOutPath flags inPath outStat =
          posixJoin (posixParse inPath).dir ((posixParse inPath).name ++ ".docx")) ∧
    (∀ (flags : Flags) (inPath d : String) (outStat : Option StatKind),
      flags.output = some d → d ≠ "" →
      (endsWithSep d = true ∨ outStat = some StatKind.dir) →
        convertOutPath flags inPath outStat =
          posixJoin d ((posixParse inPath).name ++ ".docx")) ∧
    (∀ (flags : Flags) (inPath d : String) (outStat : Option StatKind),
      flags.output = some d → d ≠ "" → endsWithSep d = false →
      outStat ≠ some StatKind.dir →
        convertOutPath flags inPath outStat = d) ∧
    convertOutPath { defaultFlags with output := none } "notes/readme.md" none =
      "notes/readme.docx" ∧
    convertOutPath { defaultFlags with output := some "build/" } "notes/readme.md"
      (some StatKind.dir) = "build/readme.docx" ∧
    convertOutPath { defaultFlags with output := some "out/final.docx" } "notes/readme.md" none =
      "out/final.docx" := by
  refine ⟨?_, ?_, ?_, by decide, by decide, by decide⟩
  · intro flags inPath outStat h
    simp [convertOutPath, resolveOutputPath, h, optStrTruthy]
  · intro flags inPath d outStat h hd hcase
    by_cases hdir : outStat = some StatKind.dir
    · simp [convertOutPath, h, optStrTruthy, hd, hdir]
    · have hsep : endsWithSep d = true := by
        rcases hcase with h1 | h1
        · exact h1
        · exact absurd h1 hdir
      simp [convertOutPath, resolveOutputPath, h, optStrTruthy, hd, hdir, hsep]
  · intro flags inPath d outStat h hd hsep hdir
    simp [convertOutPath, resolveOutputPath, h, optStrTruthy, hd, hdir, hsep]

theorem output_path_resolution_witness :
    ({ defaultFlags with output := none } : Flags).output = none ∧
    convertOutPath { defaultFlags with output := none } "a/b.md" none =
      posixJoin (posixParse "a/b.md").dir ((posixParse "a/b.md").name ++ ".docx") ∧
    endsWithSep "dist/" = true ∧
    convertOutPath { defaultFlags with output := some "dist/" } "a/b.md" none =
      posixJoin "dist/" ((posixParse "a/b.md").name ++ ".docx") ∧
    convertOutPath { defaultFlags with output := some "x.docx" } "a/b.md" (some StatKind.file) =
      "x.docx" :=
  ⟨rfl,
   output_path_resolution.1 _ "a/b.md" none rfl,
   by decide,
   output_path_resolution.2.1 _ "a/b.md" "dist/" none rfl (by decide) (Or.inl (by decide)),
   output_path_resolution.2.2.1 _ "a/b.md" "x.docx" (some StatKind.file) rfl (by decide)
     (by decide) (by decide)⟩

/-- C9: a cancel action (c or q shortcut, or the injected Cancel item of a
navigable select) sets the step to welcome and leaves the recorded input
path and every Flags field unchanged. -/
theorem wizard_cancel_preserves_data (s : WizardState) (c : Char)
    (hc : c.toLower = 'c' ∨ c.toLower = 'q') :
    (handleShortcut s c false).step = Step.welcome ∧
    (handleShortcut s c false).flags = s.flags ∧
    (handleShortcut s c false).inputPath = s.inputPath ∧
    (∀ (α : Type) (onSelect : WizardState → α → WizardState),
      withNavSelect s (NavChoice.cancel : NavChoice α) onSelect =
        { s with step := Step.welcome }) := by
  rcases hc with h | h <;>
    refine ⟨?_, ?_, ?_, fun α onSelect => rfl⟩ <;>
      simp [handleShortcut, h]

theorem wizard_cancel_preserves_data_witness :
    (('q' : Char).toLower = 'c' ∨ ('q' : Char).toLower = 'q') ∧
    (handleShortcut ⟨Step.style, "notes.md", { defaultFlags with toc := true }⟩ 'q' false).step =
      Step.welcome ∧
    (handleShortcut ⟨Step.style, "notes.md", { defaultFlags with toc := true }⟩ 'q' false).flags =
      { defaultFlags with toc := true } ∧
    (handleShortcut ⟨Step.style, "notes.md", { defaultFlags with toc := true }⟩ 'q' false).inputPath =
      "notes.md" :=
  ⟨by decide,
   (wizard_cancel_preserves_data _ 'q' (by decide)).1,
   (wizard_cancel_preserves_data _ 'q' (by decide)).2.1,
   (wizard_cancel_preserves_data _ 'q' (by decide)).2.2.1⟩

theorem runDebounce_pending_burst (rest : List ℕ) : ∀ t0 : ℕ,
    List.Chain' (fun a b => b < a + debounceDelayMs) (t0 :: rest) →
    runDebounce rest (some (t0 + debounceDelayMs)) =
      [(t0 :: rest).getLastD 0 + debounceDelayMs] := by
  induction rest with
  | nil => intro t0 _; simp [runDebounce, List.getLastD]
  | cons t ts ih =>
    intro t0 hch
    rw [List.chain'_cons] at hch
    simp only [runDebounce]
    rw [if_neg (by omega)]
    rw [ih t hch.2]
    simp [List.getLastD_cons]

/-- C8: a burst of notifications each within the 200ms window of the
previous triggers exactly one reconversion, 200ms after the last one; and
each notification arriving before a pending deadline cancels that timer
(the machine behaves as if none were pending). -/
theorem debounce_coalescing :
    (∀ (t0 : ℕ) (rest : List ℕ),
      List.Chain' (fun a b => b < a + debounceDelayMs) (t0 :: rest) →
      runDebounce (t0 :: rest) none = [(t0 :: rest).getLastD 0 + debounceDelayMs]) ∧
    (∀ (pend t : ℕ) (ts : List ℕ), t < pend →
      runDebounce (t :: ts) (some pend) = runDebounce (t :: ts) none) := by
  constructor
  · intro t0 rest h
    simp only [runDebounce]
    exact runDebounce_pending_burst rest t0 h
  · intro pend t ts h
    simp only [runDebounce]
    rw [if_neg (by omega)]

theorem debounce_coalescing_witness :
    List.Chain' (fun a b => b < a + debounceDelayMs) [0, 10, 20, 30, 40] ∧
    runDebounce [0, 10, 20, 30, 40] none =
      [List.getLastD [0, 10, 20, 30, 40] 0 + debounceDelayMs] ∧
    List.getLastD [0, 10, 20, 30, 40] 0 + debounceDelayMs = 240 :=
  ⟨by simp [List.chain'_cons, debounceDelayMs],
   debounce_coalescing.1 0 [10, 20, 30, 40] (by simp [List.chain'_cons, debounceDelayMs]),
   by decide⟩

theorem runConvert_stat_fail (flags : Flags) (inPath : String) (env : Env)
    (h : env.inputStat ≠ some StatKind.file) :
    runConvert flags inPath env =
      mkFatal ("Input not found or not a file: " ++ inPath) "Validating input path..." := by
  unfold runConvert
  rw [if_pos h]

theorem runConvert_read_fail (flags : Flags) (inPath : String) (env : Env) (m : String)
    (h1 : env.inputStat = some StatKind.file) (h2 : env.readOutcome = .error m) :
    runConvert flags inPath env = mkFatal m "Reading markdown..." := by
  unfold runConvert
  rw [if_neg (by simp [h1]), h2]

theorem runConvert_rc_fail (flags : Flags) (inPath : String) (env : Env) (markdown m : String)
    (h1 : env.inputStat = some StatKind.file) (h2 : env.readOutcome = .ok markdown)
    (h3 : loadJsonIfExists (some rcFileName) env.rcOutcome =
      (.error m : Except String (Option RcConfig))) :
    runConvert flags inPath env = mkFatal m "Preparing options..." := by
  unfold runConvert
  rw [if_neg (by simp [h1]), h2, h3]

theorem runConvert_style_fail (flags : Flags) (inPath : String) (env : Env)
    (markdown m : String) (rc : Option RcConfig)
    (h1 : env.inputStat = some StatKind.file) (h2 : env.readOutcome = .ok markdown)
    (h3 : loadJsonIfExists (some rcFileName) env.rcOutcome = .ok rc)
    (h4 : loadJsonIfExists flags.style env.styleOutcome =
      (.error m : Except String (Option StyleObj))) :
    runConvert flags inPath env = mkFatal m "Preparing options..." := by
  unfold runConvert
  rw [if_neg (by simp [h1]), h2, h3, h4]

theorem runConvert_eq_phase2 (flags : Flags) (inPath : String) (env : Env)
    (markdown : String) (rc : Option RcConfig) (sf : Option StyleObj)
    (h1 : env.inputStat = some StatKind.file) (h2 : env.readOutcome = .ok markdown)
    (h3 : loadJsonIfExists (some rcFileName) env.rcOutcome = .ok rc)
    (h4 : loadJsonIfExists flags.style env.styleOutcome = .ok sf) :
    runConvert flags inPath env = convertPhase2 flags inPath env markdown rc sf := by
  unfold runConvert
  rw [if_neg (by simp [h1]), h2, h3, h4]

theorem convertPhase2_conv_error (flags : Flags) (inPath : String) (env : Env)
    (markdown : String) (rc : Option RcConfig) (sf : Option StyleObj) (m : String)
    (h : env.convOutcome = .error m) :
    (convertPhase2 flags inPath env markdown rc sf).writes = [] ∧
    (convertPhase2 flags inPath env markdown rc sf).error.isSome = true ∧
    (convertPhase2 flags inPath env markdown rc sf).opened = false ∧
    (convertPhase2 flags inPath env markdown rc sf).watcherInstalled = false := by
  simp only [convertPhase2, h]
  simp [mkFatal]

theorem loadJson_rc_ok_absent (env : Env) (h : env.rcOutcome = FileOutcome.absent) :
    loadJsonIfExists (some rcFileName) env.rcOutcome =
      (.ok none : Except String (Option RcConfig)) := by
  simp [loadJsonIfExists, h, optStrTruthy, rcFileName]

theorem loadJson_rc_ok_json (env : Env) (a : RcConfig) (h : env.rcOutcome = FileOutcome.json a) :
    loadJsonIfExists (some rcFileName) env.rcOutcome =
      (.ok (some a) : Except String (Option RcConfig)) := by
  simp [loadJsonIfExists, h, optStrTruthy, rcFileName]

theorem loadJson_style_ok_falsy (flags : Flags) (env : Env)
    (h : optStrTruthy flags.style = false) :
    loadJsonIfExists flags.style env.styleOutcome =
      (.ok none : Except String (Option StyleObj)) := by
  simp [loadJsonIfExists, h]

theorem fatal_after_loads (flags : Flags) (inPath : String) (env : Env) (markdown : String)
    (rc : Option RcConfig)
    (h1 : env.inputStat = some StatKind.file)
    (h2 : env.readOutcome = .ok markdown)
    (h3 : loadJsonIfExists (some rcFileName) env.rcOutcome = .ok rc)
    (h : (optStrTruthy flags.style = true ∧ ∃ m, env.styleOutcome = FileOutcome.failure m) ∨
         (∃ m, env.convOutcome = .error m)) :
    (runConvert flags inPath env).writes = [] ∧
    (runConvert flags inPath env).error.isSome = true ∧
    (runConvert flags inPath env).opened = false ∧
    (runConvert flags inPath env).watcherInstalled = false := by
  rcases h with ⟨hst, m, hm⟩ | ⟨m, hm⟩
  · rw [runConvert_style_fail flags inPath env markdown
      ("Failed to read or parse JSON: " ++ flags.style.getD "" ++ "\n" ++ m) rc h1 h2 h3
      (by simp [loadJsonIfExists, hst, hm])]
    simp [mkFatal]
  · by_cases hsty : optStrTruthy flags.style = true
    · cases hso : env.styleOutcome with
      | failure m2 =>
        rw [runConvert_style_fail flags inPath env markdown
          ("Failed to read or parse JSON: " ++ flags.style.getD "" ++ "\n" ++ m2) rc h1 h2 h3
          (by simp [loadJsonIfExists, hsty, hso])]
        simp [mkFatal]
      | absent =>
        rw [runConvert_eq_phase2 flags inPath env markdown rc none h1 h2 h3
          (by simp [loadJsonIfExists, hsty, hso])]
        exact convertPhase2_conv_error flags inPath env markdown rc none m hm
      | json a =>
        rw [runConvert_eq_phase2 flags inPath env markdown rc (some a) h1 h2 h3
          (by simp [loadJsonIfExists, hsty, hso])]
        exact convertPhase2_conv_error flags inPath env markdown rc (some a) m hm
    · rw [runConvert_eq_phase2 flags inPath env markdown rc none h1 h2 h3
        (loadJson_style_ok_falsy flags env (by simpa using hsty))]
      exact convertPhase2_conv_error flags inPath env markdown rc none m hm

/-- C7: any failure before persist (input missing, read error, config or
style parse error, conversion failure) leaves nothing written, nothing
opened, no watcher installed, and an error surfaced. -/
theorem fatal_before_persist_no_write (flags : Flags) (inPath : String) (env : Env)
    (h : env.inputStat ≠ some StatKind.file ∨
         (∃ m, env.readOutcome = .error m) ∨
         (∃ m, env.rcOutcome = FileOutcome.failure m) ∨
         (optStrTruthy flags.style = true ∧ ∃ m, env.styleOutcome = FileOutcome.failure m) ∨
         (∃ m, env.convOutcome = .error m)) :
    (runConvert flags inPath env).writes = [] ∧
    (runConvert flags inPath env).error.isSome = true ∧
    (runConvert flags inPath env).opened = false ∧
    (runConvert flags inPath env).watcherInstalled = false := by
  by_cases hin : env.inputStat = some StatKind.file
  · cases hro : env.readOutcome with
    | error m => rw [runConvert_read_fail flags inPath env m hin hro]; simp [mkFatal]
    | ok markdown =>
      cases hrc : env.rcOutcome with
      | failure m =>
        rw [runConvert_rc_fail flags inPath env markdown
          ("Failed to read or parse JSON: " ++ rcFileName ++ "\n" ++ m) hin hro
          (by simp [loadJsonIfExists, optStrTruthy, rcFileName, hrc])]
        simp [mkFatal]
      | absent =>
        rcases h with h' | ⟨m, hm⟩ | ⟨m, hm⟩ | h' | h'
        · exact absurd hin h'
        · rw [hro] at hm; simp at hm
        · rw [hrc] at hm; simp at hm
        · exact fatal_after_loads flags inPath env markdown none hin hro
            (loadJson_rc_ok_absent env hrc) (Or.inl h')
        · exact fatal_after_loads flags inPath env markdown none hin hro
            (loadJson_rc_ok_absent env hrc) (Or.inr h')
      | json a =>
        rcases h with h' | ⟨m, hm⟩ | ⟨m, hm⟩ | h' | h'
        · exact absurd hin h'
        · rw [hro] at hm; simp at hm
        · rw [hrc] at hm; simp at hm
        · exact fatal_after_loads flags inPath env markdown (some a) hin hro
            (loadJson_rc_ok_json env a hrc) (Or.inl h')
        · exact fatal_after_loads flags inPath env markdown (some a) hin hro
            (loadJson_rc_ok_json env a hrc) (Or.inr h')
  · rw [runConvert_stat_fail flags inPath env hin]; simp [mkFatal]


theorem fatal_before_persist_no_write_witness :
    (∃ m, convFailEnv.convOutcome = .error m) ∧
    (runConvert defaultFlags "doc.md" convFailEnv).writes = [] ∧
    (runConvert defaultFlags "doc.md" convFailEnv).error.isSome = true ∧
    (runConvert defaultFlags "doc.md" convFailEnv).opened = false ∧
    (runConvert defaultFlags "doc.md" convFailEnv).watcherInstalled = false :=
  ⟨⟨"boom", rfl⟩,
   (fatal_before_persist_no_write defaultFlags "doc.md" convFailEnv
      (Or.inr (Or.inr (Or.inr (Or.inr ⟨"boom", rfl⟩))))).1,
   (fatal_before_persist_no_write defaultFlags "doc.md" convFailEnv
      (Or.inr (Or.inr (Or.inr (Or.inr ⟨"boom", rfl⟩))))).2.1,
   (fatal_before_persist_no_write defaultFlags "doc.md" convFailEnv
      (Or.inr (Or.inr (Or.inr (Or.inr ⟨"boom", rfl⟩))))).2.2.1,
   (fatal_before_persist_no_write defaultFlags "doc.md" convFailEnv
      (Or.inr (Or.inr (Or.inr (Or.inr ⟨"boom", rfl⟩))))).2.2.2⟩

/-- C1 as stated is false: with every phase through persist successful and
the open action failing, the invocation does not stay successful — the
open error lands in the shared catch, the error slot is set (so the UI
shows the error state, not the success status), and the requested watcher
is never installed; only the written artifact survives. -/
theorem open_failure_counterexample :
    (runConvert openFailFlags "doc.md" openFailEnv).error = some "open failed" ∧
    ¬ (runConvert openFailFlags "doc.md" openFailEnv).error = none ∧
    (runConvert openFailFlags "doc.md" openFailEnv).writes = [("doc.docx", [1, 2, 3])] ∧
    openFailFlags.watch = true ∧
    (runConvert openFailFlags "doc.md" openFailEnv).watcherInstalled = false := by
  refine ⟨?_, ?_, ?_, ?_, ?_⟩ <;> decide

/-- C1 amended: when every phase through persist succeeds and the OS open
action fails, the written artifact stays on disk (no rollback), but the
failure is fatal to the rest of the invocation: the error slot holds the
open error and the watcher is not installed. -/
theorem open_failure_keeps_artifact (flags : Flags) (inPath markdown msg : String)
    (env : Env) (rc : Option RcConfig) (sf : Option StyleObj) (art : Artifact)
    (hopen : flags.openFlag = true)
    (h1 : env.inputStat = some StatKind.file)
    (h2 : env.readOutcome = .ok markdown)
    (h3 : loadJsonIfExists (some rcFileName) env.rcOutcome = .ok rc)
    (h4 : loadJsonIfExists flags.style env.styleOutcome = .ok sf)
    (h5 : env.convOutcome = .ok art)
    (h6 : env.writeOutcome = .ok ())
    (h7 : env.openOutcome = .error msg) :
    (runConvert flags inPath env).error = some msg ∧
    (runConvert flags inPath env).writes = [(convertOutPath flags inPath env.outStat, art)] ∧
    (runConvert flags inPath env).opened = false ∧
    (runConvert flags inPath env).watcherInstalled = false := by
  rw [runConvert_eq_phase2 flags inPath env markdown rc sf h1 h2 h3 h4]
  simp only [convertPhase2, h5, h6, h7, hopen]
  simp

theorem open_failure_keeps_artifact_witness :
    openFailFlags.openFlag = true ∧
    openFailEnv.inputStat = some StatKind.file ∧
    openFailEnv.readOutcome = .ok "# hi" ∧
    loadJsonIfExists (some rcFileName) openFailEnv.rcOutcome =
      (.ok none : Except String (Option RcConfig)) ∧
    loadJsonIfExists openFailFlags.style openFailEnv.styleOutcome =
      (.ok none : Except String (Option StyleObj)) ∧
    openFailEnv.convOutcome = .ok [1, 2, 3] ∧
    openFailEnv.writeOutcome = .ok () ∧
    openFailEnv.openOutcome = .error "open failed" ∧
    (runConvert openFailFlags "readme.md" openFailEnv).error = some "open failed" ∧
    (runConvert openFailFlags "readme.md" openFailEnv).writes =
      [(convertOutPath openFailFlags "readme.md" openFailEnv.outStat, [1, 2, 3])] :=
  ⟨rfl, rfl, rfl, rfl, rfl, rfl, rfl, rfl,
   (open_failure_keeps_artifact openFailFlags "readme.md" "# hi" "open failed" openFailEnv
      none none [1, 2, 3] rfl rfl rfl rfl rfl rfl rfl rfl).1,
   (open_failure_keeps_artifact openFailFlags "readme.md" "# hi" "open failed" openFailEnv
      none none [1, 2, 3] rfl rfl rfl rfl rfl rfl rfl rfl).2.1⟩

/-- C6 fails on the code: meow declares a default of "document" for the
type flag, so a CLI invocation without an explicit -t still hands
"document" to the nullish chain and the config file's documentType
"report" is never consulted.  The inner chain alone would honor the
config value. -/
theorem document_type_meow_default_shadows_config :
    documentTypeFromCli none (some "report") = "document" ∧
    effectiveDocumentType none (some "report") = "report" ∧
    (runConvert { defaultFlags with type := some (cliTypeFlag none) } "doc.md"
        rcReportEnv).converterCalls =
      [("# hi", ⟨"document", none⟩)] := by
  refine ⟨rfl, rfl, ?_⟩
  decide
